import Mathlib

/-!
Verification of the TrueSpec partial-fetch scanning engine.

This file contains a shallow embedding of the core of the TrueSpec scanner
(the piece-range planner, the largest-video selection, the two-clock stall
detector, the error-to-status classifier, the probe/retry orchestrator, the
worker exit classifier and the worker entry point), translated from the Go
sources, together with theorems settling the behavioural claims about them.

Conventions of the embedding:
* Go `int`/`int64` values are modelled with `Int` (or `Nat` for counts and
  piece indices, where the Go code keeps them non-negative); no arithmetic
  here approaches machine bounds, so overflow is not modelled.
* Go byte strings are modelled as `String`/`List Char`.
* External effects (the BitTorrent client, the ffprobe/whisper binaries,
  wall-clock time) are passed in as explicit oracle inputs; the functions
  under verification are the pure decision logic of the Go sources.
-/

namespace TrueSpec

/-! ### String helpers (Go `strings` / `path/filepath`) -/

/-- `charsLeads pat text` is true when `pat` occurs at the beginning of
`text` (character-by-character comparison). -/
def charsLeads : List Char → List Char → Bool
  | [], _ => true
  | _ :: _, [] => false
  | p :: ps, c :: cs => p == c && charsLeads ps cs

/-- `charsFound pat text` is true when `pat` occurs contiguously anywhere in
`text`. -/
def charsFound (pat : List Char) : List Char → Bool
  | [] => pat.isEmpty
  | c :: cs => charsLeads pat (c :: cs) || charsFound pat cs

/-- Model of Go `strings.Contains s sub`. -/
def goContains (s sub : String) : Bool :=
  charsFound sub.toList s.toList

/-- ASCII lowercasing of one character.  (Go `strings.ToLower` is
Unicode-aware; every token the scanner lowercases and compares —
extensions, language tags — is ASCII, where the two agree.) -/
def lowerChar (c : Char) : Char :=
  if c.toNat ≥ 65 && c.toNat ≤ 90 then Char.ofNat (c.toNat + 32) else c

/-- ASCII uppercasing of one character. -/
def upperChar (c : Char) : Char :=
  if c.toNat ≥ 97 && c.toNat ≤ 122 then Char.ofNat (c.toNat - 32) else c

/-- Model of Go `strings.ToLower` (ASCII range). -/
def strLower (s : String) : String :=
  String.mk (s.toList.map lowerChar)

/-- Model of Go `strings.ToUpper` (ASCII range). -/
def strUpper (s : String) : String :=
  String.mk (s.toList.map upperChar)

/-- Helper for `goExt`: walk the path from its end; `acc` holds the
characters already passed, in source order. -/
def goExtAux : List Char → List Char → String
  | [], _ => ""
  | c :: rest, acc =>
    if c == '.' then String.mk ('.' :: acc)
    else if c == '/' then ""
    else goExtAux rest (c :: acc)

/-- Model of Go `filepath.Ext`: the suffix of the final path element starting
at its final dot, or `""` when the final element has no dot. -/
def goExt (path : String) : String :=
  goExtAux path.toList.reverse []

/-! ### Video-extension tables (downloader, latest revision) -/

/-- `videoExtensions` from the downloader: the extensions eligible for
target-file selection. -/
def videoExtensions (ext : String) : Bool :=
  ext == ".mkv" || ext == ".mp4" || ext == ".avi" ||
  ext == ".m4v" || ext == ".wmv" || ext == ".ts" ||
  ext == ".mov"

/-- `mp4Extensions` from the downloader: containers whose moov atom may sit
at the end of the file. -/
def mp4Extensions (ext : String) : Bool :=
  ext == ".mp4" || ext == ".m4v" || ext == ".mov"

/-! ### Target-file selection (`findLargestVideo`) -/

/-- A file of a torrent as the downloader sees it: its display path and its
length in bytes. -/
structure TFile where
  displayPath : String
  length : Int
deriving DecidableEq, Repr

/-- Whether a torrent file is counted as a video by the downloader. -/
def isVideoFile (f : TFile) : Bool :=
  videoExtensions (strLower (goExt f.displayPath))

/-- One step of the selection loop of `findLargestVideo`: keep the running
best (strictly larger length replaces it). -/
def flvStep (acc : Option TFile × Int) (f : TFile) : Option TFile × Int :=
  if isVideoFile f && f.length > acc.2 then (some f, f.length) else acc

/-- `findLargestVideo` from the downloader: scan the metadata file list,
keeping the largest video file (first occurrence wins ties); error when no
video file was retained. -/
def findLargestVideo (files : List TFile) : Except String TFile :=
  match (files.foldl flvStep (none, 0)).1 with
  | some f => Except.ok f
  | none => Except.error "no video file found in torrent"

/-! ### Piece-range planner (`PartialDownload` / `RequestMorePieces`) -/

/-- The piece plan computed by `PartialDownload`: head pieces from the start
of the file, and for MP4-family extensions also tail pieces from its end,
with the tail start clamped to the head end to avoid overlap.  Piece
indices and byte counts are non-negative throughout the Go code; the one
intermediate that can go negative in Go (`fileEndPiece - endPiecesNeeded`)
is computed in `Int` before the clamp. -/
def planPieces (pieceLength fileStartPiece fileEndPiece minBytes : ℕ)
    (ext : String) : Finset ℕ :=
  let startPiecesNeeded := (minBytes + pieceLength - 1) / pieceLength
  let startEnd0 := fileStartPiece + startPiecesNeeded
  let startEnd := if startEnd0 > fileEndPiece then fileEndPiece else startEnd0
  let head := Finset.Ico fileStartPiece startEnd
  if mp4Extensions ext then
    let endPiecesNeeded := (minBytes + pieceLength - 1) / pieceLength
    let endStart0 : Int := (fileEndPiece : Int) - (endPiecesNeeded : Int)
    let endStart : Int := if endStart0 < (startEnd : Int) then (startEnd : Int) else endStart0
    head ∪ Finset.Ico endStart.toNat fileEndPiece
  else head

/-! ### Two-clock piece wait (`waitForPieces`, latest revision) -/

/-- One poll observation of `waitForPieces`: the tick instant (seconds since
the wait started), the piece-completion snapshot, and the cumulative
data bytes read from the swarm. -/
structure Tick where
  t : ℕ
  complete : ℕ → Bool
  bytes : ℕ

/-- The mutable loop state of `waitForPieces`. -/
structure WaitState where
  lastPieceAt : ℕ
  lastBytesAt : ℕ
  lastCompleted : ℕ
  lastBytes : ℕ
deriving DecidableEq, Repr

/-- Result of the wait loop.  `stalled` records the two elapsed spans the Go
error message reports (`now - lastPieceAt`, `now - lastBytesAt`). -/
inductive WaitOutcome where
  | done
  | timedOut
  | stalled (pieceElapsed byteElapsed : ℕ)
  | pending (st : WaitState)
deriving DecidableEq, Repr

/-- Advance the two progress clocks: the piece clock when more required
pieces are complete than before, the byte clock when the cumulative byte
counter grew. -/
def advanceClocks (st : WaitState) (tk : Tick) (completed : ℕ) : WaitState :=
  let st1 := if completed > st.lastCompleted then
      { st with lastPieceAt := tk.t, lastCompleted := completed } else st
  if tk.bytes > st1.lastBytes then
    { st1 with lastBytesAt := tk.t, lastBytes := tk.bytes } else st1

/-- One `ticker` iteration of `waitForPieces`: check completion, advance the
piece clock and the byte clock, then declare a stall only when both
`pieceStall` and `byteStall` hold, i.e. both clocks exceed the stall
timeout. -/
def waitStep (stallTimeout : ℕ) (required : List ℕ) (st : WaitState)
    (tk : Tick) : WaitOutcome :=
  let completed := (required.filter tk.complete).length
  if required.all tk.complete then .done
  else
    let st2 := advanceClocks st tk completed
    if stallTimeout < tk.t - st2.lastPieceAt ∧
        stallTimeout < tk.t - st2.lastBytesAt then
      .stalled (tk.t - st2.lastPieceAt) (tk.t - st2.lastBytesAt)
    else .pending st2

/-- The wait loop over a trace of poll observations.  The absolute
`max timeout` deadline is checked before the tick body, modelling the
`time.After` channel of the Go select. -/
def waitRun (stallTimeout maxTimeout : ℕ) (required : List ℕ) :
    WaitState → List Tick → WaitOutcome
  | st, [] => .pending st
  | st, tk :: rest =>
    if maxTimeout ≤ tk.t then .timedOut
    else
      match waitStep stallTimeout required st tk with
      | .pending st2 => waitRun stallTimeout maxTimeout required st2 rest
      | outcome => outcome

/-- `waitForPieces`: run the loop from the initial state (both clocks at the
start instant, no pieces, no bytes). -/
def waitForPieces (stallTimeout maxTimeout : ℕ) (required : List ℕ)
    (trace : List Tick) : WaitOutcome :=
  waitRun stallTimeout maxTimeout required ⟨0, 0, 0, 0⟩ trace

/-! ### Language normalization (`lang.go`) -/

/-- The `langNormalize` table: ISO-639-2/B, 639-2/T and 639-1 codes mapped
to ISO-639-1. -/
def langNormalizeTable : List (String × String) :=
  [("eng", "en"), ("en", "en"),
   ("spa", "es"), ("es", "es"),
   ("fre", "fr"), ("fra", "fr"), ("fr", "fr"),
   ("ger", "de"), ("deu", "de"), ("de", "de"),
   ("ita", "it"), ("it", "it"),
   ("por", "pt"), ("pt", "pt"),
   ("rus", "ru"), ("ru", "ru"),
   ("jpn", "ja"), ("ja", "ja"),
   ("kor", "ko"), ("ko", "ko"),
   ("chi", "zh"), ("zho", "zh"), ("zh", "zh"),
   ("hin", "hi"), ("hi", "hi"),
   ("ara", "ar"), ("ar", "ar"),
   ("dut", "nl"), ("nld", "nl"), ("nl", "nl"),
   ("pol", "pl"), ("pl", "pl"),
   ("tur", "tr"), ("tr", "tr"),
   ("swe", "sv"), ("sv", "sv"),
   ("nor", "no"), ("nob", "no"), ("nno", "no"), ("no", "no"),
   ("dan", "da"), ("da", "da"),
   ("fin", "fi"), ("fi", "fi"),
   ("cze", "cs"), ("ces", "cs"), ("cs", "cs"),
   ("hun", "hu"), ("hu", "hu"),
   ("rum", "ro"), ("ron", "ro"), ("ro", "ro"),
   ("gre", "el"), ("ell", "el"), ("el", "el"),
   ("tha", "th"), ("th", "th"),
   ("vie", "vi"), ("vi", "vi"),
   ("ind", "id"), ("id", "id"),
   ("heb", "he"), ("he", "he"),
   ("ukr", "uk"), ("uk", "uk"),
   ("cat", "ca"), ("ca", "ca"),
   ("bul", "bg"), ("bg", "bg"),
   ("hrv", "hr"), ("hr", "hr"),
   ("srp", "sr"), ("sr", "sr"),
   ("slv", "sl"), ("sl", "sl"),
   ("lit", "lt"), ("lt", "lt"),
   ("lav", "lv"), ("lv", "lv"),
   ("est", "et"), ("et", "et")]

/-- `NormalizeLang`: empty becomes `und`; otherwise lowercase and map via the
table, unmapped codes passing through lowercased. -/
def normalizeLang (raw : String) : String :=
  if raw == "" then "und"
  else
    let lower := strLower raw
    match langNormalizeTable.lookup lower with
    | some mapped => mapped
    | none => lower

/-! ### Track / result data model (`types.go`, latest revision) -/

/-- An audio stream extracted by the probe. -/
structure AudioTrack where
  lang : String
  codec : String
  channels : Int
  title : String
  default : Bool
deriving DecidableEq, Repr

/-- A subtitle stream extracted by the probe. -/
structure SubtitleTrack where
  lang : String
  codec : String
  title : String
  forced : Bool
  default : Bool
deriving DecidableEq, Repr

/-- The primary video stream metadata.  The Go `FrameRate float64` (the
rational `num/den` rounded to three decimals) is kept here as the parsed
rational pair; the floating-point rounding itself is outside the model. -/
structure VideoInfo where
  codec : String
  width : Int
  height : Int
  bitDepth : Int
  hdr : String
  frameRate : Option (Int × Int)
  profile : String
deriving DecidableEq, Repr

/-- A file within a torrent, as listed in the scan result. -/
structure FileInfo where
  path : String
  size : Int
  ext : String
deriving DecidableEq, Repr

/-- Swarm health snapshot. -/
structure SwarmInfo where
  activePeers : Int
  totalPeers : Int
  seeds : Int
  downloadBytesTotal : Int
  uploadBytesTotal : Int
deriving DecidableEq, Repr

/-- The scan result for one torrent.  The `files` field abstracts the Go
`*TorrentFiles` threat-analysis payload to the underlying file listing
(threat classification is an external adapter that never feeds back into
the scan status). -/
structure ScanResult where
  infoHash : String
  status : String
  file : String
  audio : List AudioTrack
  subtitles : List SubtitleTrack
  video : Option VideoInfo
  languages : List String
  elapsedMs : Int
  error : String
  files : Option (List FileInfo)
  swarm : Option SwarmInfo
deriving DecidableEq, Repr

/-- The Go zero value of `ScanResult` (composite literals leave unnamed
fields at their zero values). -/
def emptyScanResult : ScanResult :=
  { infoHash := "", status := "", file := "", audio := [], subtitles := []
  , video := none, languages := [], elapsedMs := 0, error := ""
  , files := none, swarm := none }

/-! ### Merged languages (`ComputeLanguages`) -/

/-- Append with set semantics (first occurrence kept), modelling insertion
into a Go `map[string]struct` followed by the final sort. -/
def dedupAppend (acc : List String) (l : String) : List String :=
  if acc.contains l then acc else acc ++ [l]

/-- Insert into a sorted list (ascending). -/
def insertSorted (x : String) : List String → List String
  | [] => [x]
  | y :: ys => if x ≤ y then x :: y :: ys else y :: insertSorted x ys

/-- Insertion sort, modelling `sort.Strings`. -/
def sortStrings (ls : List String) : List String :=
  ls.foldr insertSorted []

/-- The ambiguity markers replaced by detected languages. -/
def ambiguousLang (l : String) : Bool :=
  l == "multi" || l == "dual"

/-- `ComputeLanguages`: collect track languages (dropping empty, `und` and
codes longer than three characters), merge with the existing list
(ambiguity markers `multi`/`dual` are replaced outright when anything was
detected), and return the sorted unique result.  Go iterates sets in
unspecified order and then sorts; dedup-lists plus the final sort give the
same value. -/
def computeLanguages (existing : List String) (audioTracks : List AudioTrack) :
    List String :=
  let detected := audioTracks.foldl (fun acc t =>
    if t.lang != "" && t.lang != "und" && t.lang.length ≤ 3 then
      dedupAppend acc t.lang else acc) []
  let existingSet := existing.foldl dedupAppend []
  let allAmbiguous := existingSet.all ambiguousLang
  let merged :=
    if allAmbiguous && existingSet.length > 0 then
      if detected.length > 0 then detected else existingSet
    else
      let base := (existingSet.filter (fun l => !ambiguousLang l)).foldl dedupAppend []
      let union := detected.foldl dedupAppend base
      if union.length = 0 then existingSet else union
  sortStrings merged

/-! ### Probe output model (`ExtractMediaInfo`) -/

/-- One stream of the probe's JSON output. -/
structure FfprobeStream where
  codecType : String
  codecName : String
  profile : String
  channels : Int
  width : Int
  height : Int
  bitsPerRaw : String
  pixFmt : String
  colorSpace : String
  colorTransfer : String
  colorPrimaries : String
  rFrameRate : String
  tags : List (String × String)
  disposition : List (String × Int)
  sideDataList : List String
deriving DecidableEq, Repr

/-- `tagValue`: case-insensitive tag access (exact key, then uppercase). -/
def tagValue (tags : List (String × String)) (key : String) : String :=
  match tags.lookup key with
  | some v => v
  | none =>
    match tags.lookup (strUpper key) with
    | some v => v
    | none => ""

/-- Disposition lookup (absent keys read as the zero value). -/
def dispValue (disposition : List (String × Int)) (key : String) : Int :=
  (disposition.lookup key).getD 0

/-- `containsAny`: whether any of the substrings occurs in `s`. -/
def containsAny (s : String) (subs : List String) : Bool :=
  subs.any (fun sub => goContains s sub)

/-- Build an audio track from an `audio` stream. -/
def buildAudioTrack (s : FfprobeStream) : AudioTrack :=
  { lang := normalizeLang (tagValue s.tags "language")
  , codec := s.codecName
  , channels := s.channels
  , title := tagValue s.tags "title"
  , default := dispValue s.disposition "default" == 1 }

/-- Build a subtitle track from a `subtitle` stream. -/
def buildSubtitleTrack (s : FfprobeStream) : SubtitleTrack :=
  { lang := normalizeLang (tagValue s.tags "language")
  , codec := s.codecName
  , title := tagValue s.tags "title"
  , forced := dispValue s.disposition "forced" == 1
  , default := dispValue s.disposition "default" == 1 }

/-- The `hdrProfiles` lookup on `(color_space, color_transfer)`. -/
def hdrLookup (cs ct : String) : Option String :=
  if cs == "bt2020nc" && ct == "smpte2084" then some "HDR10"
  else if cs == "bt2020nc" && ct == "arib-std-b67" then some "HLG"
  else none

/-- Build the video info from the first `video` stream: bit depth from
`bits_per_raw_sample` else the pixel-format hint, HDR from the profile
table with single-field fallbacks, Dolby Vision from the side-data list,
and the frame rate parsed from the rational `num/den` string. -/
def buildVideoInfo (s : FfprobeStream) : VideoInfo :=
  let bitDepth : Int :=
    if s.bitsPerRaw != "" then
      match s.bitsPerRaw.toInt? with
      | some bd => bd
      | none => 0
    else if containsAny s.pixFmt ["10le", "10be", "p010"] then 10
    else if containsAny s.pixFmt ["12le", "12be"] then 12
    else 0
  let hdr0 :=
    match hdrLookup s.colorSpace s.colorTransfer with
    | some h => h
    | none =>
      if s.colorTransfer == "smpte2084" then "HDR10"
      else if s.colorTransfer == "arib-std-b67" then "HLG"
      else ""
  let hdr :=
    if s.sideDataList.contains "DOVI configuration record" then
      if hdr0 != "" then "DV+" ++ hdr0 else "DV"
    else hdr0
  let frameRate : Option (Int × Int) :=
    if s.rFrameRate != "" && goContains s.rFrameRate "/" then
      match s.rFrameRate.splitOn "/" with
      | [] => none
      | p0 :: restParts =>
        match p0.toInt?, (String.intercalate "/" restParts).toInt? with
        | some num, some den => if den > 0 then some (num, den) else none
        | _, _ => none
    else none
  { codec := s.codecName
  , width := s.width
  , height := s.height
  , bitDepth := bitDepth
  , hdr := hdr
  , frameRate := frameRate
  , profile := s.profile }

/-- The stream lists of a parsed probe run. -/
structure ProbeMedia where
  audio : List AudioTrack
  subtitles : List SubtitleTrack
  video : Option VideoInfo
deriving DecidableEq, Repr

/-- One iteration of the stream-classification loop: audio and subtitle
streams append tracks; only the first video stream is retained. -/
def classifyStream (acc : ProbeMedia) (s : FfprobeStream) : ProbeMedia :=
  if s.codecType == "audio" then
    { acc with audio := acc.audio ++ [buildAudioTrack s] }
  else if s.codecType == "subtitle" then
    { acc with subtitles := acc.subtitles ++ [buildSubtitleTrack s] }
  else if s.codecType == "video" then
    match acc.video with
    | some _ => acc
    | none => { acc with video := some (buildVideoInfo s) }
  else acc

/-- The stream-parsing core of `ExtractMediaInfo`: reject an empty stream
list, otherwise classify every stream.  (Running the probe binary and
unmarshalling its JSON are external; their failures enter the orchestrator
model as `Except.error` probe outcomes.) -/
def extractStreams (streams : List FfprobeStream) : Except String ProbeMedia :=
  if streams.length = 0 then Except.error "ffprobe returned no streams"
  else Except.ok (streams.foldl classifyStream ⟨[], [], none⟩)

/-! ### Language detection application (`langdetect.go`) -/

/-- `isUnknownLang`: undefined/empty language tags. -/
def isUnknownLang (lang : String) : Bool :=
  let l := strLower lang
  l == "und" || l == "" || l == "undefined" || l == "unknown"

/-- `ShouldDetectLanguage`: only successful results where every audio track
has an unknown language. -/
def shouldDetectLanguage (r : ScanResult) : Bool :=
  r.status == "success" && r.audio.length != 0 &&
  r.audio.all (fun t => isUnknownLang t.lang)

/-- `undefinedTrackIndices`: indices of audio tracks with unknown language. -/
def undefinedTrackIndices (audio : List AudioTrack) : List ℕ :=
  audio.enum.filterMap (fun p => if isUnknownLang p.2.lang then some p.1 else none)

/-- Apply one accepted detection to the track at index `i`: set the
normalized language and annotate the title with the detection note. -/
def applyDetectedLang (audio : List AudioTrack) (i : ℕ) (lang : String)
    (confPct : Int) : List AudioTrack :=
  match audio.get? i with
  | none => audio
  | some tr =>
    let normalized := normalizeLang lang
    let note := "detected:" ++ normalized ++ "(" ++ toString confPct ++ "%)"
    let title1 := if tr.title != "" then tr.title ++ " [" ++ note ++ "]"
      else "[" ++ note ++ "]"
    audio.set i { tr with lang := normalized, title := title1 }

/-- One track of the detection loop: a `none` detection (failure, disabled,
or no output) leaves the tracks unchanged, as does an empty language. -/
def detectFoldStep (detect : ℕ → Option (String × Int))
    (acc : List AudioTrack) (i : ℕ) : List AudioTrack :=
  match detect i with
  | none => acc
  | some (lang, confPct) =>
    if lang == "" then acc else applyDetectedLang acc i lang confPct

/-- `ApplyLangDetection`: when applicable, run the external detector (here an
oracle `detect`, whose `none` covers both "disabled" and every failure
path) over the undefined track indices capped at `maxTracks`, updating
track languages in place and recomputing the language list.  The oracle
yields the detected language and the integer confidence percentage the Go
code derives from the detector's float confidence. -/
def applyLangDetection (maxTracks : ℕ) (detect : ℕ → Option (String × Int))
    (r : ScanResult) : ScanResult :=
  if !shouldDetectLanguage r then r
  else
    let indices := (undefinedTrackIndices r.audio).take maxTracks
    let audio1 := indices.foldl (detectFoldStep detect) r.audio
    { r with audio := audio1, languages := computeLanguages [] audio1 }

/-! ### Orchestrator (`processOne` / `errorResult`, latest revision) -/

/-- The orchestrator configuration fields the model consumes. -/
structure Config where
  minBytesMKV : ℕ
  minBytesMP4 : ℕ
  maxFFprobeRetries : ℕ
deriving DecidableEq, Repr

/-- The successful outcome of `PartialDownload`. -/
structure DownloadResult where
  filePath : String
  fileName : String
  ext : String
deriving DecidableEq, Repr

/-- `errorResult`: classify a fetch-phase error by substring of its message.
The wall-clock elapsed milliseconds are an input here. -/
def errorResult (infoHash errMsg : String) (elapsedMs : Int) : ScanResult :=
  let status :=
    if goContains errMsg "metadata timeout" then "stall_metadata"
    else if goContains errMsg "stall" then "stall_download"
    else if goContains errMsg "max timeout" then "timeout"
    else if goContains errMsg "no video file" then "no_video"
    else if goContains errMsg "not found on disk" then "file_not_found"
    else "error"
  { emptyScanResult with
      infoHash := infoHash, status := status, error := errMsg
    , elapsedMs := elapsedMs }

/-- The external collaborators of one `processOne` run, as oracles: the
download outcome, the metadata file listing and swarm snapshot, the probe
binary resolution, the per-attempt probe outcome, the per-attempt
`RequestMorePieces` outcome (`none` = ok), the language detector, and the
wall clock. -/
structure Oracles where
  dlOutcome : Except String DownloadResult
  fileList : List FileInfo
  swarm : Option SwarmInfo
  resolveFFprobe : Except String String
  probeExec : ℕ → Except String (List FfprobeStream)
  reqMore : ℕ → Option String
  detect : ℕ → Option (String × Int)
  maxTracks : ℕ
  elapsedMs : Int

/-- The file-listing enrichment: attached only when the listing is
non-empty (abstracting `AnalyzeFiles`, whose threat payload never feeds
back into the scan). -/
def analyzedFiles (fileList : List FileInfo) : Option (List FileInfo) :=
  if fileList.length > 0 then some fileList else none

/-- One probe attempt as the retry loop sees it: the attempt succeeds only
when the probe ran, parsed, and extracted at least one audio track. -/
def probeOnce (o : Oracles) (attempt : ℕ) : Option ProbeMedia :=
  match (o.probeExec attempt).bind extractStreams with
  | Except.ok m => if m.audio.length > 0 then some m else none
  | Except.error _ => none

/-- Assemble the success result: status, file name, languages, enrichment
snapshots, then the in-place language detection, then the elapsed clock.
(The duration propagation into the file listing, driven by external
header probes, is outside the model.) -/
def successResult (o : Oracles) (infoHash : String) (dl : DownloadResult)
    (m : ProbeMedia) : ScanResult :=
  let base := { emptyScanResult with
      infoHash := infoHash, status := "success", file := dl.fileName
    , audio := m.audio, subtitles := m.subtitles, video := m.video
    , languages := computeLanguages [] m.audio
    , files := analyzedFiles o.fileList, swarm := o.swarm }
  let withLang := applyLangDetection o.maxTracks o.detect base
  { withLang with elapsedMs := o.elapsedMs }

/-- The retries-exhausted result. -/
def ffprobeFailedResult (o : Oracles) (infoHash : String)
    (dl : DownloadResult) : ScanResult :=
  { emptyScanResult with
      infoHash := infoHash, status := "ffprobe_failed", file := dl.fileName
    , elapsedMs := o.elapsedMs
    , files := analyzedFiles o.fileList, swarm := o.swarm }

/-- The probe/retry loop of `processOne`.  `remaining` counts the retries
still allowed (`maxFFprobeRetries - attempt`).  On a failed attempt with
retries left the budget doubles and the new budget is requested from the
fetcher; the returned list records every budget so requested. -/
def probeRetryLoop (o : Oracles) (infoHash : String) (dl : DownloadResult) :
    ℕ → ℕ → ℕ → ScanResult × List ℕ
  | 0, attempt, _ =>
    match probeOnce o attempt with
    | some m => (successResult o infoHash dl m, [])
    | none => (ffprobeFailedResult o infoHash dl, [])
  | r + 1, attempt, minBytes =>
    match probeOnce o attempt with
    | some m => (successResult o infoHash dl m, [])
    | none =>
      let mb := minBytes * 2
      match o.reqMore attempt with
      | some e =>
        ({ errorResult infoHash e o.elapsedMs with
            files := analyzedFiles o.fileList, swarm := o.swarm }, [mb])
      | none =>
        let rest := probeRetryLoop o infoHash dl r (attempt + 1) mb
        (rest.1, mb :: rest.2)

/-- `processOne`, the per-hash orchestrator: initial download with the MKV
threshold; on failure, classify and enrich.  On success, rebaseline the
budget to the MP4 threshold for `.mp4`/`.m4v` targets, resolve the probe
binary, then run the probe/retry loop.  Returns the result and the list
of budgets requested on retries. -/
def processOne (o : Oracles) (cfg : Config) (infoHash : String) :
    ScanResult × List ℕ :=
  let minBytes := cfg.minBytesMKV
  match o.dlOutcome with
  | Except.error e =>
    ({ errorResult infoHash e o.elapsedMs with
        files := analyzedFiles o.fileList, swarm := o.swarm }, [])
  | Except.ok dl =>
    let minBytes1 := if dl.ext == ".mp4" || dl.ext == ".m4v" then
        cfg.minBytesMP4 else minBytes
    match o.resolveFFprobe with
    | Except.error e =>
      ({ emptyScanResult with
          infoHash := infoHash, status := "error", error := e
        , elapsedMs := o.elapsedMs
        , files := analyzedFiles o.fileList, swarm := o.swarm }, [])
    | Except.ok _ =>
      probeRetryLoop o infoHash dl cfg.maxFFprobeRetries 0 minBytes1

/-! ### Scheduler cancellation drain (`ScanWithStats`, latest revision) -/

/-- The result `ScanWithStats` emits for a hash whose task never started
when the cancellation token fired. -/
def cancelledDrainResult (h : String) : ScanResult :=
  { emptyScanResult with infoHash := h, status := "error", error := "cancelled" }

/-- After cancellation at loop index `i`, the scheduler immediately emits
one such result for every not-yet-admitted hash. -/
def drainOnCancel (hashes : List String) (i : ℕ) : List ScanResult :=
  (hashes.drop i).map cancelledDrainResult

/-! ### Worker protocol (`worker.go`) -/

/-- The worker wire output: one scan result plus traffic counters. -/
structure WorkerOutputDoc where
  result : ScanResult
  downloaded : Int
  uploaded : Int
deriving DecidableEq, Repr

/-- `workerCrashResult`. -/
def workerCrashResult (infoHash reason : String) : WorkerOutputDoc :=
  ⟨{ emptyScanResult with
      infoHash := infoHash, status := "worker_crashed", error := reason
    , elapsedMs := 0 }, 0, 0⟩

/-- `workerErrorResult`. -/
def workerErrorResult (infoHash reason : String) : WorkerOutputDoc :=
  ⟨{ emptyScanResult with
      infoHash := infoHash, status := "worker_error", error := reason
    , elapsedMs := 0 }, 0, 0⟩

/-- `truncateOutput`: keep at most 200 bytes of child stdout, marking the
truncation.  Stdout is modelled byte-per-character. -/
def truncateOutput (data : List Char) : String :=
  if data.length ≤ 200 then String.mk data
  else String.mk (data.take 200) ++ "... (truncated)"

/-- The signals distinguished by the `signalName` switch; every other signal
carries its number. -/
inductive GoSignal where
  | sigbus
  | sigsegv
  | sigkill
  | sigterm
  | sigint
  | sigabrt
  | other (n : Int)
deriving DecidableEq, Repr

/-- `signalName`. -/
def signalName : GoSignal → String
  | .sigbus => "SIGBUS"
  | .sigsegv => "SIGSEGV"
  | .sigkill => "SIGKILL"
  | .sigterm => "SIGTERM"
  | .sigint => "SIGINT"
  | .sigabrt => "SIGABRT"
  | .other n => "signal " ++ toString n

/-- How a worker child terminated, as the parent observes it: exit 0 with
the captured stdout and its JSON decode outcome, death by signal, a
nonzero exit code, or a wait/context failure. -/
inductive WorkerExit where
  | exitedOk (stdout : List Char) (decoded : Except String WorkerOutputDoc)
  | signaled (sig : GoSignal)
  | exitedNonzero (code : Int)
  | waitFailed (msg : String)

/-- The exit classification of `processOneIsolated`: forward decoded output;
synthesize `worker_error` with a stdout preview on decode failure;
`worker_crashed` with the signal name on a signal death; `worker_error`
with the exit code otherwise; and the wait error message verbatim for
context/transport failures. -/
def classifyWorkerExit (infoHash : String) : WorkerExit → WorkerOutputDoc
  | .exitedOk _ (Except.ok o) => o
  | .exitedOk s (Except.error e) =>
    workerErrorResult infoHash
      ("invalid worker output: " ++ e ++ " (output: " ++ truncateOutput s ++ ")")
  | .signaled sig =>
    workerCrashResult infoHash ("killed by signal " ++ signalName sig)
  | .exitedNonzero code =>
    workerErrorResult infoHash ("exit " ++ toString code)
  | .waitFailed msg => workerErrorResult infoHash msg

/-! ### Worker entry point (`runWorker`, main.go) -/

/-- The worker wire input (stdin JSON document). -/
structure WorkerInput where
  infoHash : String
  index : Int
  total : Int
  ffprobePath : String
  tempDir : String
  stallTimeout : Int
  maxTimeout : Int
  timeoutSeconds : Int
  minBytesMKV : Int
  minBytesMP4 : Int
  maxRetries : Int
deriving DecidableEq, Repr

/-- The document `runWorker` writes when stdin does not decode as a
`WorkerInput`. -/
def badInputOutput (errMsg : String) : WorkerOutputDoc :=
  ⟨{ emptyScanResult with
      infoHash := "unknown", status := "worker_error"
    , error := "decode input: " ++ errMsg }, 0, 0⟩

/-- `runWorker`: with stdout pre-redirected so only the saved original fd
receives documents, decode stdin; on failure write the structured
decode-error document and exit 1, otherwise run the scan (`scan` stands
for `RunWorker`) and write its document.  Returns the documents written
to the original stdout and the explicit exit code (`none` = normal
return, exit 0).  Encoding of these documents cannot fail, so the
encode-error exit path is vacuous here. -/
def runWorker (decoded : Except String WorkerInput)
    (scan : WorkerInput → WorkerOutputDoc) :
    List WorkerOutputDoc × Option Int :=
  match decoded with
  | Except.error e => ([badInputOutput e], some 1)
  | Except.ok input => ([scan input], none)

/-! ### Helper lemmas: ceiling division and the plan shape -/

/-- `(B + p - 1) / p` is an upper ceiling: `B ≤ ((B + p - 1) / p) * p`. -/
lemma ceilDiv_mul_ge (B p : ℕ) (hp : 0 < p) : B ≤ ((B + p - 1) / p) * p := by
  have h1 := Nat.div_add_mod (B + p - 1) p
  have h2 : (B + p - 1) % p < p := Nat.mod_lt _ hp
  have h3 : ((B + p - 1) / p) * p = p * ((B + p - 1) / p) := Nat.mul_comm _ _
  rw [h3]
  generalize hq : p * ((B + p - 1) / p) = q at h1 ⊢
  omega

/-- `(B + p - 1) / p` is the least `k` with `B ≤ k * p`. -/
lemma ceilDiv_least (B p k : ℕ) (hp : 0 < p) (hk : B ≤ k * p) :
    (B + p - 1) / p ≤ k := by
  have h1 : B + p - 1 < (k + 1) * p := by
    have h2 : (k + 1) * p = k * p + p := Nat.succ_mul k p
    generalize hq : k * p = q at h2 hk ⊢
    omega
  have h3 : (B + p - 1) / p < k + 1 := Nat.div_lt_of_lt_mul (by
    rw [Nat.mul_comm]; exact h1)
  omega

/-- The plan computed by the downloader, rewritten as the head/tail
interval union of the specification. -/
lemma planPieces_shape (p b e B : ℕ) (ext : String) :
    planPieces p b e B ext =
      Finset.Ico b (min e (b + (B + p - 1) / p)) ∪
        (if mp4Extensions ext then
          Finset.Ico
            (max (e - (B + p - 1) / p) (min e (b + (B + p - 1) / p))) e
         else ∅) := by
  unfold planPieces
  cases hm : mp4Extensions ext with
  | false =>
    simp only [hm, Bool.false_eq_true, if_false, Finset.union_empty]
    congr 1
    split <;> omega
  | true =>
    simp only [hm, if_true]
    ext x
    simp only [Finset.mem_union, Finset.mem_Ico]
    split_ifs <;> omega

/-- Head and tail of the plan never overlap: the tail start is clamped to
the head end. -/
lemma plan_head_tail_disjoint (p b e B : ℕ) :
    Disjoint (Finset.Ico b (min e (b + (B + p - 1) / p)))
      (Finset.Ico
        (max (e - (B + p - 1) / p) (min e (b + (B + p - 1) / p))) e) := by
  rw [Finset.disjoint_left]
  intro a ha hb
  rw [Finset.mem_Ico] at ha hb
  omega

/-- Claim C5: for piece length `p > 0`, file piece range `[begin, end)` and
byte budget `B > 0`, the planned piece set is head `∪` tail, where
head `= [begin, min(end, begin + ceil(B/p)))`, tail
`= [max(end − ceil(B/p), head_end), end)` for MP4-family extensions and
`∅` otherwise; head and tail never overlap, and `(B + p − 1) / p` is
exactly `ceil(B/p)` (the least `k` with `B ≤ k·p`). -/
theorem claim5_plan_head_union_tail (p b e B : ℕ) (ext : String)
    (hp : 0 < p) (hB : 0 < B) (hbe : b ≤ e) :
    planPieces p b e B ext =
      Finset.Ico b (min e (b + (B + p - 1) / p)) ∪
        (if mp4Extensions ext then
          Finset.Ico
            (max (e - (B + p - 1) / p) (min e (b + (B + p - 1) / p))) e
         else ∅) ∧
    Disjoint (Finset.Ico b (min e (b + (B + p - 1) / p)))
      (Finset.Ico
        (max (e - (B + p - 1) / p) (min e (b + (B + p - 1) / p))) e) ∧
    B ≤ ((B + p - 1) / p) * p ∧
    (∀ k, B ≤ k * p → (B + p - 1) / p ≤ k) :=
  ⟨planPieces_shape p b e B ext, plan_head_tail_disjoint p b e B,
   ceilDiv_mul_ge B p hp, fun k hk => ceilDiv_least B p k hp hk⟩

/-- Witness for C5 at `p = 2`, `begin = 0`, `end = 10`, `B = 3`,
extension `.mp4`. -/
theorem claim5_witness :
    planPieces 2 0 10 3 ".mp4" =
      Finset.Ico 0 (min 10 (0 + (3 + 2 - 1) / 2)) ∪
        (if mp4Extensions ".mp4" then
          Finset.Ico
            (max (10 - (3 + 2 - 1) / 2) (min 10 (0 + (3 + 2 - 1) / 2))) 10
         else ∅) ∧
    Disjoint (Finset.Ico 0 (min 10 (0 + (3 + 2 - 1) / 2)))
      (Finset.Ico
        (max (10 - (3 + 2 - 1) / 2) (min 10 (0 + (3 + 2 - 1) / 2))) 10) ∧
    3 ≤ ((3 + 2 - 1) / 2) * 2 ∧
    (∀ k, 3 ≤ k * 2 → (3 + 2 - 1) / 2 ≤ k) :=
  claim5_plan_head_union_tail 2 0 10 3 ".mp4" (by decide) (by decide) (by decide)

/-- Claim C6 (corrected): under the additional proviso that the file's piece
range holds at least `ceil(B/p)` pieces, the plan has exactly
`ceil(B/p)` pieces for non-MP4-family targets and between `ceil(B/p)`
and `2·ceil(B/p)` pieces for MP4-family targets.  (Without the proviso
the head is clamped to the file end and the count drops below
`ceil(B/p)`; see the counterexample.) -/
theorem claim6_plan_card (p b e B : ℕ) (ext : String)
    (hp : 0 < p) (hB : 0 < B) (hbe : b ≤ e)
    (hcap : (B + p - 1) / p ≤ e - b) :
    (mp4Extensions ext = false →
      (planPieces p b e B ext).card = (B + p - 1) / p) ∧
    (mp4Extensions ext = true →
      (B + p - 1) / p ≤ (planPieces p b e B ext).card ∧
      (planPieces p b e B ext).card ≤ 2 * ((B + p - 1) / p)) := by
  rw [planPieces_shape]
  constructor
  · intro hm
    simp only [hm, Bool.false_eq_true, if_false, Finset.union_empty,
      Nat.card_Ico]
    generalize hc : (B + p - 1) / p = c at hcap ⊢
    omega
  · intro hm
    simp only [hm, if_true]
    rw [Finset.card_union_of_disjoint (plan_head_tail_disjoint p b e B),
      Nat.card_Ico, Nat.card_Ico]
    generalize hc : (B + p - 1) / p = c at hcap ⊢
    omega

/-- Witness for C6 at `p = 2`, `begin = 3`, `end = 103`, `B = 5`,
extension `.mkv`. -/
theorem claim6_witness :
    (mp4Extensions ".mkv" = false →
      (planPieces 2 3 103 5 ".mkv").card = (5 + 2 - 1) / 2) ∧
    (mp4Extensions ".mkv" = true →
      (5 + 2 - 1) / 2 ≤ (planPieces 2 3 103 5 ".mkv").card ∧
      (planPieces 2 3 103 5 ".mkv").card ≤ 2 * ((5 + 2 - 1) / 2)) :=
  claim6_plan_card 2 3 103 5 ".mkv" (by decide) (by decide) (by decide)
    (by decide)

/-- Counterexample to C6 as stated: with piece length 1, range `[0, 1)` and
budget 2 the target is a one-piece file, so the plan holds 1 piece while
`ceil(B/p) = 2` — the unclamped count claimed for non-MP4 targets fails,
and so does the MP4-family lower bound. -/
theorem claim6_counterexample :
    (planPieces 1 0 1 2 ".mkv").card ≠ (2 + 1 - 1) / 1 ∧
    (planPieces 1 0 1 2 ".mp4").card < (2 + 1 - 1) / 1 := by
  constructor
  · decide
  · decide

/-! ### Error classification (C2) -/

/-- Claim C2: the orchestrator's classification maps the fetch error message
by substring, in order: `metadata timeout → stall_metadata`, else
`stall → stall_download`, else `max timeout → timeout`, else
`no video file → no_video`, else `not found on disk → file_not_found`,
else `error`; the message and hash are carried into the result. -/
theorem claim2_error_classification (infoHash errMsg : String)
    (elapsedMs : Int) :
    (goContains errMsg "metadata timeout" = true →
      (errorResult infoHash errMsg elapsedMs).status = "stall_metadata") ∧
    (goContains errMsg "metadata timeout" = false →
      goContains errMsg "stall" = true →
      (errorResult infoHash errMsg elapsedMs).status = "stall_download") ∧
    (goContains errMsg "metadata timeout" = false →
      goContains errMsg "stall" = false →
      goContains errMsg "max timeout" = true →
      (errorResult infoHash errMsg elapsedMs).status = "timeout") ∧
    (goContains errMsg "metadata timeout" = false →
      goContains errMsg "stall" = false →
      goContains errMsg "max timeout" = false →
      goContains errMsg "no video file" = true →
      (errorResult infoHash errMsg elapsedMs).status = "no_video") ∧
    (goContains errMsg "metadata timeout" = false →
      goContains errMsg "stall" = false →
      goContains errMsg "max timeout" = false →
      goContains errMsg "no video file" = false →
      goContains errMsg "not found on disk" = true →
      (errorResult infoHash errMsg elapsedMs).status = "file_not_found") ∧
    (goContains errMsg "metadata timeout" = false →
      goContains errMsg "stall" = false →
      goContains errMsg "max timeout" = false →
      goContains errMsg "no video file" = false →
      goContains errMsg "not found on disk" = false →
      (errorResult infoHash errMsg elapsedMs).status = "error") ∧
    (errorResult infoHash errMsg elapsedMs).error = errMsg ∧
    (errorResult infoHash errMsg elapsedMs).infoHash = infoHash := by
  refine ⟨?_, ?_, ?_, ?_, ?_, ?_, ?_, ?_⟩ <;>
    intros <;> simp_all [errorResult]

/-- Witness for C2: a resolver failure message classifies as
`file_not_found`, and an unmatched message classifies as `error`. -/
theorem claim2_witness :
    (errorResult "deadbeef" "downloaded file not found on disk for deadbeef"
      7).status = "file_not_found" ∧
    (errorResult "deadbeef" "add magnet: boom" 7).status = "error" := by
  constructor
  · exact (claim2_error_classification "deadbeef"
      "downloaded file not found on disk for deadbeef" 7).2.2.2.2.1
      (by decide) (by decide) (by decide) (by decide) (by decide)
  · exact (claim2_error_classification "deadbeef"
      "add magnet: boom" 7).2.2.2.2.2.1
      (by decide) (by decide) (by decide) (by decide) (by decide)

/-! ### Scheduler cancellation drain (C8) -/

/-- Claim C8 (corrected): when the cancellation token fires before the task
of hash `i` started, the scheduler immediately emits one result per
not-yet-started hash — but its status is `"error"` with the error field
`"cancelled"`, not a `"cancelled"` status. -/
theorem claim8_cancel_drain (hashes : List String) (i : ℕ) :
    ((drainOnCancel hashes i).map (fun r => r.infoHash) = hashes.drop i) ∧
    (∀ r ∈ drainOnCancel hashes i,
      r.status = "error" ∧ r.error = "cancelled") := by
  constructor
  · rw [drainOnCancel, List.map_map]
    have hid : ((fun r => r.infoHash) ∘ cancelledDrainResult) = id := by
      funext h; rfl
    rw [hid, List.map_id]
  · intro r hr
    simp only [drainOnCancel, List.mem_map] at hr
    obtain ⟨h, _, rfl⟩ := hr
    exact ⟨rfl, rfl⟩

/-- Witness for C8: draining `["h1", "h2"]` from index 1 emits exactly the
result for `"h2"`, with status `"error"` and error `"cancelled"`. -/
theorem claim8_witness :
    ((drainOnCancel ["h1", "h2"] 1).map (fun r => r.infoHash) = ["h2"]) ∧
    (cancelledDrainResult "h2").status = "error" ∧
    (cancelledDrainResult "h2").error = "cancelled" :=
  ⟨(claim8_cancel_drain ["h1", "h2"] 1).1,
   (claim8_cancel_drain ["h1", "h2"] 1).2 (cancelledDrainResult "h2")
     (by simp [drainOnCancel])⟩

/-- Counterexample to C8 as stated: the result emitted for an unstarted hash
carries status `"error"` (the string `"cancelled"` only appears in the
error field), so its status is not `"cancelled"`. -/
theorem claim8_counterexample :
    (drainOnCancel ["aa"] 0).map (fun r => r.status) = ["error"] ∧
    "error" ≠ "cancelled" := by
  constructor
  · rfl
  · decide

/-! ### Worker exit classification (C9) -/

/-- Claim C9: the parent's exit classification — exit 0 with decodable JSON
forwards the contained result; exit 0 with undecodable JSON yields a
`worker_error` whose error embeds the stdout preview truncated to at most
200 bytes; death by a signal yields `worker_crashed` carrying the mapped
signal name (`SIGBUS`, `SIGSEGV`, `SIGKILL`, `SIGTERM`, `SIGINT`,
`SIGABRT`, else `signal <n>`); a nonzero exit without a signal yields a
`worker_error` with `exit <code>`. -/
theorem claim9_worker_exit (h : String) :
    (∀ s o, classifyWorkerExit h (.exitedOk s (Except.ok o)) = o) ∧
    (∀ s e,
      (classifyWorkerExit h (.exitedOk s (Except.error e))).result.status =
        "worker_error" ∧
      (classifyWorkerExit h (.exitedOk s (Except.error e))).result.error =
        "invalid worker output: " ++ e ++ " (output: " ++
          truncateOutput s ++ ")") ∧
    (∀ s : List Char,
      (s.take 200).length ≤ 200 ∧
      (s.length ≤ 200 → truncateOutput s = String.mk s) ∧
      (200 < s.length →
        truncateOutput s = String.mk (s.take 200) ++ "... (truncated)")) ∧
    (∀ sig,
      (classifyWorkerExit h (.signaled sig)).result.status =
        "worker_crashed" ∧
      (classifyWorkerExit h (.signaled sig)).result.error =
        "killed by signal " ++ signalName sig) ∧
    (signalName .sigbus = "SIGBUS" ∧ signalName .sigsegv = "SIGSEGV" ∧
     signalName .sigkill = "SIGKILL" ∧ signalName .sigterm = "SIGTERM" ∧
     signalName .sigint = "SIGINT" ∧ signalName .sigabrt = "SIGABRT" ∧
     ∀ n : Int, signalName (.other n) = "signal " ++ toString n) ∧
    (∀ c : Int,
      (classifyWorkerExit h (.exitedNonzero c)).result.status =
        "worker_error" ∧
      (classifyWorkerExit h (.exitedNonzero c)).result.error =
        "exit " ++ toString c) := by
  refine ⟨fun s o => rfl, fun s e => ⟨rfl, rfl⟩, ?_,
    fun sig => ⟨rfl, rfl⟩, ⟨rfl, rfl, rfl, rfl, rfl, rfl, fun n => rfl⟩,
    fun c => ⟨rfl, rfl⟩⟩
  intro s
  refine ⟨?_, ?_, ?_⟩
  · rw [List.length_take]
    omega
  · intro hle
    simp [truncateOutput, hle]
  · intro hgt
    have : ¬ s.length ≤ 200 := by omega
    simp [truncateOutput, this]

/-- Witness for C9: a worker killed by SIGSEGV is reported as
`worker_crashed` with the mapped name, and a 2-byte stdout is not
truncated. -/
theorem claim9_witness :
    (classifyWorkerExit "ih" (.signaled .sigsegv)).result.error =
      "killed by signal SIGSEGV" ∧
    truncateOutput ['a', 'b'] = String.mk ['a', 'b'] := by
  obtain ⟨_, _, h3, h4, h5, _⟩ := claim9_worker_exit "ih"
  refine ⟨?_, (h3 ['a', 'b']).2.1 (by decide)⟩
  have he := (h4 GoSignal.sigsegv).2
  have hn := h5.2.1
  rw [he, hn]
  decide

/-! ### Worker subcommand input-decode failure (C10) -/

/-- Claim C10: when the worker subcommand's stdin does not decode as a
`WorkerInput`, the child still writes exactly one structured
`WorkerOutput` document to the original stdout — status `worker_error`,
info hash `"unknown"`, error beginning with `"decode input:"` — and
exits with code 1. -/
theorem claim10_bad_input (e : String)
    (scan : WorkerInput → WorkerOutputDoc) :
    (runWorker (Except.error e) scan).1.length = 1 ∧
    (runWorker (Except.error e) scan).2 = some 1 ∧
    (∀ doc ∈ (runWorker (Except.error e) scan).1,
      doc.result.status = "worker_error" ∧
      doc.result.infoHash = "unknown" ∧
      ∃ rest, doc.result.error = "decode input:" ++ rest) := by
  refine ⟨rfl, rfl, ?_⟩
  intro doc hdoc
  have hd : doc = badInputOutput e := by
    simpa [runWorker] using hdoc
  subst hd
  refine ⟨rfl, rfl, " " ++ e, ?_⟩
  show "decode input: " ++ e = "decode input:" ++ (" " ++ e)
  have h1 : "decode input: " = "decode input:" ++ " " := rfl
  rw [h1, String.append_assoc]

/-- Witness for C10 at a concrete decode error. -/
theorem claim10_witness :
    (runWorker (Except.error "unexpected EOF")
      (fun _ => badInputOutput "")).1.length = 1 ∧
    (badInputOutput "unexpected EOF").result.status = "worker_error" ∧
    (badInputOutput "unexpected EOF").result.infoHash = "unknown" ∧
    (∃ rest,
      (badInputOutput "unexpected EOF").result.error =
        "decode input:" ++ rest) := by
  obtain ⟨h1, _, h3⟩ := claim10_bad_input "unexpected EOF"
    (fun _ => badInputOutput "")
  obtain ⟨ha, hb, hc⟩ := h3 (badInputOutput "unexpected EOF")
    (by simp [runWorker])
  exact ⟨h1, ha, hb, hc⟩

/-! ### Two-clock stall lemmas (C4) -/

/-- If the byte counter grew this tick, the byte clock is reset to the tick
instant. -/
lemma advanceClocks_bytes (st : WaitState) (tk : Tick) (c : ℕ)
    (h : st.lastBytes < tk.bytes) :
    (advanceClocks st tk c).lastBytesAt = tk.t ∧
    (advanceClocks st tk c).lastBytes = tk.bytes := by
  unfold advanceClocks
  split <;> simp_all

/-- A stall outcome of one step always carries spans exceeding the stall
timeout on both clocks. -/
lemma waitStep_stalled_spans (stT : ℕ) (req : List ℕ) (st : WaitState)
    (tk : Tick) (pe be : ℕ)
    (h : waitStep stT req st tk = .stalled pe be) : stT < pe ∧ stT < be := by
  simp only [waitStep] at h
  split_ifs at h with hall hguard
  all_goals first
    | (obtain ⟨h1, h2⟩ := h; omega)
    | simp at h

/-- A pending outcome of one step carries exactly the clock-advanced
state. -/
lemma waitStep_pending_eq (stT : ℕ) (req : List ℕ) (st : WaitState)
    (tk : Tick) (st2 : WaitState)
    (h : waitStep stT req st tk = .pending st2) :
    st2 = advanceClocks st tk ((req.filter tk.complete).length) := by
  simp only [waitStep] at h
  split_ifs at h with hall hguard
  all_goals simp_all

/-- When the byte counter grew this tick, the step never declares a stall:
the reset byte clock makes `byteStall` false. -/
lemma waitStep_no_stall_of_bytes (stT : ℕ) (req : List ℕ) (st : WaitState)
    (tk : Tick) (hlt : st.lastBytes < tk.bytes) :
    ∀ pe be, waitStep stT req st tk ≠ .stalled pe be := by
  intro pe be h
  simp only [waitStep] at h
  split_ifs at h with hall hguard
  all_goals first
    | (have hby :=
        (advanceClocks_bytes st tk ((req.filter tk.complete).length) hlt).1
       rw [hby] at hguard
       omega)
    | simp at h

/-- Over any trace, a stall outcome of the loop carries spans exceeding the
stall timeout on both clocks. -/
lemma waitRun_stalled_spans (stT maxT : ℕ) (req : List ℕ) :
    ∀ (trace : List Tick) (st : WaitState) (pe be : ℕ),
      waitRun stT maxT req st trace = .stalled pe be →
      stT < pe ∧ stT < be := by
  intro trace
  induction trace with
  | nil =>
    intro st pe be h
    simp [waitRun] at h
  | cons tk rest ih =>
    intro st pe be h
    rw [waitRun] at h
    by_cases hdl : maxT ≤ tk.t
    · simp [hdl] at h
    · rw [if_neg hdl] at h
      cases hws : waitStep stT req st tk with
      | done => rw [hws] at h; simp at h
      | timedOut => rw [hws] at h; simp at h
      | stalled a b =>
        rw [hws] at h
        injection h with h1 h2
        subst h1
        subst h2
        exact waitStep_stalled_spans stT req st tk _ _ hws
      | pending st2 =>
        rw [hws] at h
        exact ih st2 pe be h

/-- If the byte counter strictly grows at every tick, the loop never
declares a stall. -/
lemma waitRun_no_stall_of_growth (stT maxT : ℕ) (req : List ℕ) :
    ∀ (trace : List Tick) (st : WaitState),
      List.Chain (fun a b => a < b) st.lastBytes (trace.map Tick.bytes) →
      ∀ pe be, waitRun stT maxT req st trace ≠ .stalled pe be := by
  intro trace
  induction trace with
  | nil =>
    intro st _ pe be h
    simp [waitRun] at h
  | cons tk rest ih =>
    intro st hchain pe be h
    rw [List.map_cons, List.chain_cons] at hchain
    obtain ⟨hlt, hrest⟩ := hchain
    rw [waitRun] at h
    by_cases hdl : maxT ≤ tk.t
    · simp [hdl] at h
    · rw [if_neg hdl] at h
      cases hws : waitStep stT req st tk with
      | done => rw [hws] at h; simp at h
      | timedOut => rw [hws] at h; simp at h
      | stalled a b =>
        exact waitStep_no_stall_of_bytes stT req st tk hlt a b hws
      | pending st2 =>
        rw [hws] at h
        have hst2 := waitStep_pending_eq stT req st tk st2 hws
        have hby :=
          (advanceClocks_bytes st tk ((req.filter tk.complete).length) hlt).2
        have hchain2 :
            List.Chain (fun a b => a < b) st2.lastBytes
              (rest.map Tick.bytes) := by
          rw [hst2, hby]
          exact hrest
        exact ih st2 hchain2 pe be h

/-- Claim C4: the wait loop declares a stall only when both the
piece-completion clock and the byte-counter clock have gone longer than
`stall_timeout` without progress; in particular, when the cumulative
byte counter strictly grows at every poll while no required piece
completes, no stall is ever declared. -/
theorem claim4_two_clock_stall :
    (∀ (stT maxT : ℕ) (req : List ℕ) (trace : List Tick) (pe be : ℕ),
      waitForPieces stT maxT req trace = .stalled pe be →
      stT < pe ∧ stT < be) ∧
    (∀ (stT maxT : ℕ) (req : List ℕ) (trace : List Tick),
      List.Chain (fun a b => a < b) 0 (trace.map Tick.bytes) →
      ∀ pe be, waitForPieces stT maxT req trace ≠ .stalled pe be) :=
  ⟨fun stT maxT req trace pe be h =>
    waitRun_stalled_spans stT maxT req trace _ pe be h,
   fun stT maxT req trace hchain pe be h =>
    waitRun_no_stall_of_growth stT maxT req trace ⟨0, 0, 0, 0⟩ hchain pe be h⟩

/-- Witness for C4: a silent trace (no bytes, no pieces) stalls with both
spans above the timeout, and a byte-growing trace with no piece progress
does not stall. -/
theorem claim4_witness :
    (2 < 5 ∧ 2 < 5) ∧
    waitForPieces 2 100 [0]
      [⟨3, fun _ => false, 7⟩, ⟨5, fun _ => false, 9⟩] ≠
      WaitOutcome.stalled 5 5 := by
  constructor
  · exact claim4_two_clock_stall.1 2 100 [0] [⟨5, fun _ => false, 0⟩] 5 5
      (by decide)
  · have hch : List.Chain (fun a b => a < b) 0
        (List.map Tick.bytes
          [⟨3, fun _ => false, 7⟩, ⟨5, fun _ => false, 9⟩]) := by
      show List.Chain (fun a b => a < b) 0 [7, 9]
      exact List.Chain.cons (by omega)
        (List.Chain.cons (by omega) List.Chain.nil)
    exact claim4_two_clock_stall.2 2 100 [0]
      [⟨3, fun _ => false, 7⟩, ⟨5, fun _ => false, 9⟩] hch 5 5

/-! ### Largest-video selection lemmas (C3) -/

/-- Invariant of the `findLargestVideo` fold over the already-processed
prefix: with no video retained, every processed video has non-positive
length; with `f` retained, `f` is a positive-length video, the running
size is `f.length`, no processed video is larger, and every processed
video strictly before `f` is strictly smaller (first-wins ties). -/
def FlvInv (processed : List TFile) (acc : Option TFile × Int) : Prop :=
  (acc.1 = none →
    acc.2 = 0 ∧ ∀ g ∈ processed, isVideoFile g = true → g.length ≤ 0) ∧
  (∀ f, acc.1 = some f →
    acc.2 = f.length ∧ isVideoFile f = true ∧ 0 < f.length ∧
    (∀ g ∈ processed, isVideoFile g = true → g.length ≤ f.length) ∧
    ∃ pre suf, processed = pre ++ f :: suf ∧
      ∀ g ∈ pre, isVideoFile g = true → g.length < f.length)

/-- The selection step preserves the fold invariant. -/
lemma flvStep_inv (processed : List TFile) (acc : Option TFile × Int)
    (f : TFile) (h : FlvInv processed acc) :
    FlvInv (processed ++ [f]) (flvStep acc f) := by
  obtain ⟨hnone, hsome⟩ := h
  unfold flvStep
  by_cases hc : (isVideoFile f && decide (f.length > acc.2)) = true
  · rw [if_pos hc]
    simp only [Bool.and_eq_true, decide_eq_true_eq] at hc
    obtain ⟨hv, hgt⟩ := hc
    have hacc : 0 ≤ acc.2 := by
      cases hopt : acc.1 with
      | none => exact le_of_eq (hnone hopt).1.symm
      | some p =>
        obtain ⟨hlen, _, hpos, _, _⟩ := hsome p hopt
        omega
    constructor
    · intro hn
      simp at hn
    · intro g hg
      simp only [Option.some.injEq] at hg
      subst hg
      refine ⟨rfl, hv, by omega, ?_, processed, [], rfl, ?_⟩
      · intro q hq hqv
        rcases List.mem_append.mp hq with hq | hq
        · cases hopt : acc.1 with
          | none =>
            have := (hnone hopt).2 q hq hqv
            omega
          | some p =>
            obtain ⟨hlen, _, _, hmax, _⟩ := hsome p hopt
            have := hmax q hq hqv
            omega
        · simp at hq
          subst hq
          exact le_refl _
      · intro q hq hqv
        cases hopt : acc.1 with
        | none =>
          have := (hnone hopt).2 q hq hqv
          omega
        | some p =>
          obtain ⟨hlen, _, _, hmax, _⟩ := hsome p hopt
          have := hmax q hq hqv
          omega
  · rw [if_neg hc]
    have hno : isVideoFile f = true → f.length ≤ acc.2 := by
      intro hv
      simp only [Bool.and_eq_true, decide_eq_true_eq, hv, true_and] at hc
      omega
    constructor
    · intro hn
      obtain ⟨h2, hall⟩ := hnone hn
      refine ⟨h2, ?_⟩
      intro g hg hv
      rcases List.mem_append.mp hg with hg | hg
      · exact hall g hg hv
      · simp at hg
        subst hg
        have := hno hv
        omega
    · intro p hp
      obtain ⟨hlen, hv, hpos, hmax, pre, suf, hdec, hpre⟩ := hsome p hp
      refine ⟨hlen, hv, hpos, ?_, pre, suf ++ [f], ?_, hpre⟩
      · intro g hg hgv
        rcases List.mem_append.mp hg with hg | hg
        · exact hmax g hg hgv
        · simp at hg
          subst hg
          have := hno hgv
          omega
      · rw [hdec]
        simp

/-- The fold over the whole list preserves the invariant. -/
lemma flv_fold_inv :
    ∀ (files processed : List TFile) (acc : Option TFile × Int),
      FlvInv processed acc →
      FlvInv (processed ++ files) (files.foldl flvStep acc) := by
  intro files
  induction files with
  | nil =>
    intro processed acc h
    simpa using h
  | cons f rest ih =>
    intro processed acc h
    have h2 := ih (processed ++ [f]) (flvStep acc f) (flvStep_inv processed acc f h)
    simpa [List.append_assoc] using h2

/-- The invariant holds of the empty prefix and the initial accumulator. -/
lemma flv_inv_init : FlvInv [] (none, 0) := by
  constructor
  · intro _
    exact ⟨rfl, by simp⟩
  · intro f hf
    simp at hf

/-- Claim C3 (corrected): a torrent file counts as a video exactly when its
lowercase extension is one of `.mkv .mp4 .avi .m4v .wmv .ts .mov` (seven
extensions — not the sixteen-element media set used by the threat
classifier), and the selected target is the largest such file by length
(necessarily of positive length), ties broken by first-in-metadata
order. -/
theorem claim3_video_selection :
    (∀ e : String, videoExtensions e = true ↔
      (e = ".mkv" ∨ e = ".mp4" ∨ e = ".avi" ∨ e = ".m4v" ∨ e = ".wmv" ∨
       e = ".ts" ∨ e = ".mov")) ∧
    (∀ (files : List TFile) (f : TFile),
      findLargestVideo files = Except.ok f →
      isVideoFile f = true ∧ 0 < f.length ∧
      (∀ g ∈ files, isVideoFile g = true → g.length ≤ f.length) ∧
      ∃ pre suf, files = pre ++ f :: suf ∧
        ∀ g ∈ pre, isVideoFile g = true → g.length < f.length) ∧
    (∀ files : List TFile,
      (∃ g ∈ files, isVideoFile g = true ∧ 0 < g.length) →
      ∃ f, findLargestVideo files = Except.ok f) := by
  refine ⟨?_, ?_, ?_⟩
  · intro e
    simp [videoExtensions, or_assoc]
  · intro files f hok
    have hinv := flv_fold_inv files [] (none, 0) flv_inv_init
    rw [List.nil_append] at hinv
    unfold findLargestVideo at hok
    cases hopt : (files.foldl flvStep (none, 0)).1 with
    | none =>
      rw [hopt] at hok
      simp at hok
    | some p =>
      rw [hopt] at hok
      simp only [Except.ok.injEq] at hok
      subst hok
      obtain ⟨_, hv, hpos, hmax, pre, suf, hdec, hpre⟩ := hinv.2 p hopt
      exact ⟨hv, hpos, hmax, pre, suf, hdec, hpre⟩
  · intro files hex
    obtain ⟨g, hg, hgv, hgpos⟩ := hex
    have hinv := flv_fold_inv files [] (none, 0) flv_inv_init
    rw [List.nil_append] at hinv
    unfold findLargestVideo
    cases hopt : (files.foldl flvStep (none, 0)).1 with
    | none =>
      have := (hinv.1 hopt).2 g hg hgv
      omega
    | some p =>
      exact ⟨p, rfl⟩

/-- Witness for C3: in a two-file torrent with an `.mkv` and a larger
`.mp4`, the `.mp4` is selected and bounds the `.mkv`. -/
theorem claim3_witness :
    (videoExtensions ".mkv" = true ↔
      (".mkv" = ".mkv" ∨ ".mkv" = ".mp4" ∨ ".mkv" = ".avi" ∨
       ".mkv" = ".m4v" ∨ ".mkv" = ".wmv" ∨ ".mkv" = ".ts" ∨
       ".mkv" = ".mov")) ∧
    (isVideoFile ⟨"b.mp4", 900⟩ = true ∧ (0 : Int) < 900 ∧
      (∀ g ∈ ([⟨"a.mkv", 500⟩, ⟨"b.mp4", 900⟩] : List TFile),
        isVideoFile g = true → g.length ≤ 900) ∧
      ∃ pre suf,
        ([⟨"a.mkv", 500⟩, ⟨"b.mp4", 900⟩] : List TFile) =
          pre ++ ⟨"b.mp4", 900⟩ :: suf ∧
        ∀ g ∈ pre, isVideoFile g = true → g.length < 900) := by
  constructor
  · exact claim3_video_selection.1 ".mkv"
  · exact claim3_video_selection.2.1 [⟨"a.mkv", 500⟩, ⟨"b.mp4", 900⟩]
      ⟨"b.mp4", 900⟩ (by rfl)

/-- Counterexample to C3 as stated: `.flv` belongs to the sixteen-element
extension set of the claim, yet the selector does not count it as a
video — a torrent holding only a large `.flv` file selects nothing. -/
theorem claim3_counterexample :
    videoExtensions ".flv" = false ∧
    findLargestVideo [⟨"Movie.flv", 1000⟩] =
      Except.error "no video file found in torrent" := by
  exact ⟨rfl, rfl⟩

/-! ### Orchestrator lemmas (C1, C7) -/

/-- The fetch-error classifier never yields status `success`. -/
lemma errorResult_status_ne (ih msg : String) (el : Int) :
    (errorResult ih msg el).status ≠ "success" := by
  unfold errorResult
  dsimp only
  split_ifs <;> decide

/-- Applying one detection preserves the number of audio tracks. -/
lemma applyDetectedLang_len (audio : List AudioTrack) (i : ℕ) (lang : String)
    (c : Int) : (applyDetectedLang audio i lang c).length = audio.length := by
  unfold applyDetectedLang
  cases audio.get? i with
  | none => rfl
  | some tr => simp

/-- One detection-loop step preserves the number of audio tracks. -/
lemma detectFoldStep_len (detect : ℕ → Option (String × Int))
    (acc : List AudioTrack) (i : ℕ) :
    (detectFoldStep detect acc i).length = acc.length := by
  unfold detectFoldStep
  cases detect i with
  | none => rfl
  | some p =>
    obtain ⟨lang, confPct⟩ := p
    dsimp only
    split
    · rfl
    · exact applyDetectedLang_len acc i lang confPct

/-- The detection loop preserves the number of audio tracks. -/
lemma detectFold_len (detect : ℕ → Option (String × Int)) :
    ∀ (indices : List ℕ) (audio : List AudioTrack),
      (indices.foldl (detectFoldStep detect) audio).length = audio.length := by
  intro indices
  induction indices with
  | nil => intro audio; rfl
  | cons i rest ih =>
    intro audio
    rw [List.foldl_cons, ih (detectFoldStep detect audio i),
      detectFoldStep_len]

/-- Language detection never changes the result status. -/
lemma applyLangDetection_status (mt : ℕ) (d : ℕ → Option (String × Int))
    (r : ScanResult) : (applyLangDetection mt d r).status = r.status := by
  unfold applyLangDetection
  split <;> rfl

/-- Language detection never changes the first video stream. -/
lemma applyLangDetection_video (mt : ℕ) (d : ℕ → Option (String × Int))
    (r : ScanResult) : (applyLangDetection mt d r).video = r.video := by
  unfold applyLangDetection
  split <;> rfl

/-- Language detection preserves the number of audio tracks. -/
lemma applyLangDetection_audio_len (mt : ℕ) (d : ℕ → Option (String × Int))
    (r : ScanResult) :
    (applyLangDetection mt d r).audio.length = r.audio.length := by
  unfold applyLangDetection
  split
  · rfl
  · exact detectFold_len d _ r.audio

/-- The success result carries status `success`. -/
lemma successResult_status (o : Oracles) (ih : String) (dl : DownloadResult)
    (m : ProbeMedia) : (successResult o ih dl m).status = "success" := by
  unfold successResult
  dsimp only
  rw [applyLangDetection_status]

/-- The success result carries as many audio tracks as the probe
extracted. -/
lemma successResult_audio_len (o : Oracles) (ih : String)
    (dl : DownloadResult) (m : ProbeMedia) :
    (successResult o ih dl m).audio.length = m.audio.length := by
  unfold successResult
  dsimp only
  rw [applyLangDetection_audio_len]

/-- A successful probe attempt extracted at least one audio track. -/
lemma probeOnce_pos (o : Oracles) (a : ℕ) (m : ProbeMedia)
    (h : probeOnce o a = some m) : 0 < m.audio.length := by
  unfold probeOnce at h
  cases hb : (o.probeExec a).bind extractStreams with
  | error e => rw [hb] at h; simp at h
  | ok m2 =>
    rw [hb] at h
    dsimp only at h
    split at h
    · simp only [Option.some.injEq] at h
      subst h
      omega
    · simp at h

/-- Every status `success` out of the retry loop comes with at least one
audio track. -/
lemma probeRetryLoop_success_audio (o : Oracles) (ih : String)
    (dl : DownloadResult) :
    ∀ (rem att mb : ℕ),
      (probeRetryLoop o ih dl rem att mb).1.status = "success" →
      0 < (probeRetryLoop o ih dl rem att mb).1.audio.length := by
  intro rem
  induction rem with
  | zero =>
    intro att mb h
    rw [probeRetryLoop] at h ⊢
    revert h
    cases hpo : probeOnce o att with
    | some m =>
      intro h
      dsimp only
      rw [successResult_audio_len]
      exact probeOnce_pos o att m hpo
    | none =>
      intro h
      dsimp only at h
      simp [ffprobeFailedResult] at h
  | succ r ih2 =>
    intro att mb h
    rw [probeRetryLoop] at h ⊢
    revert h
    cases hpo : probeOnce o att with
    | some m =>
      intro h
      dsimp only
      rw [successResult_audio_len]
      exact probeOnce_pos o att m hpo
    | none =>
      intro h
      dsimp only at h ⊢
      revert h
      cases hrm : o.reqMore att with
      | some e =>
        intro h
        dsimp only at h
        exact absurd h (errorResult_status_ne ih e o.elapsedMs)
      | none =>
        intro h
        dsimp only at h ⊢
        exact ih2 (att + 1) (mb * 2) h

/-- Claim C1 (corrected): every result the orchestrator produces with
status `success` has at least one audio track.  (The video stream is
*not* part of the success predicate: a probe output with audio but no
video stream still yields `success`, with a null `video` field — see the
counterexample.) -/
theorem claim1_success_has_audio (o : Oracles) (cfg : Config) (ih : String)
    (h : (processOne o cfg ih).1.status = "success") :
    1 ≤ (processOne o cfg ih).1.audio.length := by
  unfold processOne at h ⊢
  revert h
  cases hdl : o.dlOutcome with
  | error e =>
    intro h
    dsimp only at h
    exact absurd h (errorResult_status_ne ih e o.elapsedMs)
  | ok dl =>
    intro h
    dsimp only at h ⊢
    revert h
    cases hres : o.resolveFFprobe with
    | error e =>
      intro h
      dsimp only at h
      simp at h
    | ok pth =>
      intro h
      dsimp only at h ⊢
      exact probeRetryLoop_success_audio o ih dl _ 0 _ h

/-- The oracle set of the C1 witness and counterexample: a clean download of
an `.mkv` whose probe reports a single audio stream and no video
stream. -/
def c1Oracles : Oracles :=
  { dlOutcome := Except.ok ⟨"/t/Movie.mkv", "Movie.mkv", ".mkv"⟩
  , fileList := []
  , swarm := none
  , resolveFFprobe := Except.ok "ffprobe"
  , probeExec := fun _ => Except.ok
      [{ codecType := "audio", codecName := "aac", profile := ""
       , channels := 2, width := 0, height := 0, bitsPerRaw := ""
       , pixFmt := "", colorSpace := "", colorTransfer := ""
       , colorPrimaries := "", rFrameRate := ""
       , tags := [("language", "eng")], disposition := []
       , sideDataList := [] }]
  , reqMore := fun _ => none
  , detect := fun _ => none
  , maxTracks := 3
  , elapsedMs := 0 }

/-- Witness for C1 on the concrete audio-only probe run. -/
theorem claim1_witness :
    1 ≤ (processOne c1Oracles ⟨1024, 2048, 3⟩ "cafe").1.audio.length :=
  claim1_success_has_audio c1Oracles ⟨1024, 2048, 3⟩ "cafe" rfl

/-- Counterexample to C1 as stated: the same run is a `success` with a null
`video` field — the orchestrator's success predicate checks only the
audio tracks. -/
theorem claim1_counterexample :
    (processOne c1Oracles ⟨1024, 2048, 3⟩ "cafe").1.status = "success" ∧
    (processOne c1Oracles ⟨1024, 2048, 3⟩ "cafe").1.video = none :=
  ⟨rfl, rfl⟩

/-! ### Retry-controller lemmas (C7) -/

/-- The loop performs at most `remaining` piece requests. -/
lemma probeRetryLoop_reqs_len (o : Oracles) (ih : String)
    (dl : DownloadResult) :
    ∀ (rem att mb : ℕ), (probeRetryLoop o ih dl rem att mb).2.length ≤ rem := by
  intro rem
  induction rem with
  | zero =>
    intro att mb
    rw [probeRetryLoop]
    cases probeOnce o att <;> simp
  | succ r ih2 =>
    intro att mb
    rw [probeRetryLoop]
    cases probeOnce o att with
    | some m => simp
    | none =>
      cases o.reqMore att with
      | some e => simp
      | none =>
        dsimp only
        rw [List.length_cons]
        have := ih2 (att + 1) (mb * 2)
        omega

/-- The `k`-th requested budget is the doubling chain `mb · 2^(k+1)` over
the baseline `mb` the loop entered with. -/
lemma probeRetryLoop_reqs_get (o : Oracles) (ih : String)
    (dl : DownloadResult) :
    ∀ (rem att mb i v : ℕ),
      (probeRetryLoop o ih dl rem att mb).2.get? i = some v →
      v = mb * 2 ^ (i + 1) := by
  intro rem
  induction rem with
  | zero =>
    intro att mb i v h
    rw [probeRetryLoop] at h
    revert h
    cases probeOnce o att <;> intro h <;> simp at h
  | succ r ih2 =>
    intro att mb i v h
    rw [probeRetryLoop] at h
    revert h
    cases probeOnce o att with
    | some m =>
      intro h
      simp at h
    | none =>
      cases o.reqMore att with
      | some e =>
        intro h
        dsimp only at h
        cases i with
        | zero =>
          simp only [List.get?_cons_zero, Option.some.injEq] at h
          subst h
          ring
        | succ j => simp at h
      | none =>
        intro h
        dsimp only at h
        cases i with
        | zero =>
          simp only [List.get?_cons_zero, Option.some.injEq] at h
          subst h
          ring
        | succ j =>
          rw [List.get?_cons_succ] at h
          have := ih2 (att + 1) (mb * 2) j v h
          rw [this]
          ring

/-- When every probe attempt fails and every piece request succeeds, the
loop exhausts all retries and reports `ffprobe_failed` with the target
file name. -/
lemma probeRetryLoop_exhaust (o : Oracles) (ih : String)
    (dl : DownloadResult) (hfail : ∀ a, probeOnce o a = none)
    (hok : ∀ a, o.reqMore a = none) :
    ∀ (rem att mb : ℕ),
      (probeRetryLoop o ih dl rem att mb).1.status = "ffprobe_failed" ∧
      (probeRetryLoop o ih dl rem att mb).1.file = dl.fileName ∧
      (probeRetryLoop o ih dl rem att mb).2.length = rem := by
  intro rem
  induction rem with
  | zero =>
    intro att mb
    rw [probeRetryLoop, hfail att]
    exact ⟨rfl, rfl, rfl⟩
  | succ r ih2 =>
    intro att mb
    rw [probeRetryLoop, hfail att, hok att]
    dsimp only
    obtain ⟨h1, h2, h3⟩ := ih2 (att + 1) (mb * 2)
    exact ⟨h1, h2, by rw [List.length_cons, h3]⟩

/-- Claim C7 (corrected): after a successful fetch, each probe non-success
doubles the byte budget and requests it, for at most `max_retries`
doublings; the baseline of the doubling chain is the MP4 threshold
exactly when the target extension is `.mp4` or `.m4v` (a `.mov` target —
although MP4-family for piece planning — keeps the MKV baseline), and
exhausted retries yield `ffprobe_failed` with the target file name
preserved. -/
theorem claim7_retry_controller (o : Oracles) (cfg : Config) (ih : String)
    (dl : DownloadResult) (pth : String)
    (hdl : o.dlOutcome = Except.ok dl)
    (hres : o.resolveFFprobe = Except.ok pth) :
    ((processOne o cfg ih).2.length ≤ cfg.maxFFprobeRetries) ∧
    (∀ i v, (processOne o cfg ih).2.get? i = some v →
      v = (if dl.ext == ".mp4" || dl.ext == ".m4v" then cfg.minBytesMP4
           else cfg.minBytesMKV) * 2 ^ (i + 1)) ∧
    ((∀ a, probeOnce o a = none) → (∀ a, o.reqMore a = none) →
      (processOne o cfg ih).1.status = "ffprobe_failed" ∧
      (processOne o cfg ih).1.file = dl.fileName ∧
      (processOne o cfg ih).2.length = cfg.maxFFprobeRetries) := by
  have hpe : processOne o cfg ih =
      probeRetryLoop o ih dl cfg.maxFFprobeRetries 0
        (if dl.ext == ".mp4" || dl.ext == ".m4v" then cfg.minBytesMP4
         else cfg.minBytesMKV) := by
    unfold processOne
    rw [hdl]
    dsimp only
    rw [hres]
  rw [hpe]
  refine ⟨probeRetryLoop_reqs_len o ih dl _ 0 _, ?_, ?_⟩
  · intro i v h
    exact probeRetryLoop_reqs_get o ih dl _ 0 _ i v h
  · intro hfail hok
    exact probeRetryLoop_exhaust o ih dl hfail hok _ 0 _

/-- The oracle set of the C7 witness: an `.mkv` target whose probe always
fails while piece requests succeed. -/
def c7Oracles : Oracles :=
  { dlOutcome := Except.ok ⟨"/t/Movie.mkv", "Movie.mkv", ".mkv"⟩
  , fileList := []
  , swarm := none
  , resolveFFprobe := Except.ok "ffprobe"
  , probeExec := fun _ => Except.error "probe failed"
  , reqMore := fun _ => none
  , detect := fun _ => none
  , maxTracks := 3
  , elapsedMs := 0 }

/-- Witness for C7: with `max_retries = 2` and thresholds 10/20 the failing
`.mkv` run performs exactly the doubling requests and ends
`ffprobe_failed`. -/
theorem claim7_witness :
    ((processOne c7Oracles ⟨10, 20, 2⟩ "cafe").2.length ≤ 2) ∧
    (∀ i v, (processOne c7Oracles ⟨10, 20, 2⟩ "cafe").2.get? i = some v →
      v = 10 * 2 ^ (i + 1)) ∧
    ((processOne c7Oracles ⟨10, 20, 2⟩ "cafe").1.status = "ffprobe_failed" ∧
     (processOne c7Oracles ⟨10, 20, 2⟩ "cafe").1.file = "Movie.mkv" ∧
     (processOne c7Oracles ⟨10, 20, 2⟩ "cafe").2.length = 2) := by
  obtain ⟨h1, h2, h3⟩ := claim7_retry_controller c7Oracles ⟨10, 20, 2⟩ "cafe"
    ⟨"/t/Movie.mkv", "Movie.mkv", ".mkv"⟩ "ffprobe" rfl rfl
  exact ⟨h1, h2, h3 (fun a => rfl) (fun a => rfl)⟩

/-- The oracle set of the C7 counterexample: a `.mov` target whose probe
always fails. -/
def c7ctrOracles : Oracles :=
  { dlOutcome := Except.ok ⟨"/t/Clip.mov", "Clip.mov", ".mov"⟩
  , fileList := []
  , swarm := none
  , resolveFFprobe := Except.ok "ffprobe"
  , probeExec := fun _ => Except.error "probe failed"
  , reqMore := fun _ => none
  , detect := fun _ => none
  , maxTracks := 3
  , elapsedMs := 0 }

/-- Counterexample to C7 as stated: a `.mov` target is MP4-family, yet with
MKV threshold 1 and MP4 threshold 100 the single retry requests budget
`2 = 2·1` — the doubling rebaselines from the MKV threshold, not the MP4
threshold the claim prescribes for MP4-family extensions. -/
theorem claim7_counterexample :
    mp4Extensions ".mov" = true ∧
    (processOne c7ctrOracles ⟨1, 100, 1⟩ "cafe").2 = [2 * 1] ∧
    2 * 1 ≠ 2 * 100 := by
  refine ⟨rfl, rfl, by decide⟩

end TrueSpec
